import Mathlib

/-!
# mt-http-server: admission queue, worker pool and request/response model

A shallow embedding of `src/main.cpp`.

* A `std::string` is a list of bytes; the byte with code `b` is written as the
  character with code `b`, so `size()` is `List.length`.
* A connection handle (`int` file descriptor) is an `Int`.
* The state guarded by `qmutex_` is `clients_` and `stop_`; each critical
  section of the source is one atomic function on that state.
* A pair `(const char *buffer, int bytes_read)` is the list of the
  `bytes_read` bytes at `buffer`.
-/

namespace MtHttpServer

/-- A `std::string`: its bytes in order. -/
abbrev Bytes := List Char

/-! ## Request and response values -/

/-- The `struct HttpRequest`. -/
structure HttpRequest where
  method : Bytes
  path : Bytes
  is_logged_in : Bool
  deriving DecidableEq, Repr

/-- A default-constructed `HttpRequest`: empty strings, `is_logged_in = false`. -/
def HttpRequest.default : HttpRequest :=
  { method := [], path := [], is_logged_in := false }

/-- The `struct HttpResponse`. -/
structure HttpResponse where
  status_code : Int
  content_type : Bytes
  body : Bytes
  extra_headers : Bytes
  deriving DecidableEq, Repr

/-- A default-constructed `HttpResponse`: 200, `text/html`, empty body, no
extra headers. -/
def HttpResponse.default : HttpResponse :=
  { status_code := 200, content_type := "text/html".toList, body := [], extra_headers := [] }

/-! ## `parse_request` -/

/-- Whitespace of the classic "C" locale, which `operator>>` skips: space and
the bytes 9 to 13 (`\t \n \v \f \r`). -/
def isspace (c : Char) : Bool :=
  c.toNat == 32 || (9 ≤ c.toNat && c.toNat ≤ 13)

/-- A `std::stringstream` being read: the bytes not yet consumed and the two
state bits that formatted input looks at. -/
structure StringStream where
  unread : Bytes
  eofbit : Bool
  failbit : Bool
  deriving DecidableEq, Repr

/-- The stream `std::stringstream ss(raw_text)`. -/
def StringStream.ofString (raw_text : Bytes) : StringStream :=
  { unread := raw_text, eofbit := false, failbit := false }

/-- The extraction `ss >> str` for a `std::string`.
The sentry fails on a stream that is not good, leaving `str` as it was;
otherwise it skips leading whitespace and fails (setting both bits) when it
runs into the end. After a successful sentry `str` is erased and receives the
bytes up to the next whitespace or the end; reaching the end sets `eofbit`. -/
def StringStream.extract (ss : StringStream) (str : Bytes) : StringStream × Bytes :=
  if ss.eofbit || ss.failbit then
    ({ ss with failbit := true }, str)
  else
    let skipped := ss.unread.dropWhile isspace
    if skipped.isEmpty then
      ({ unread := [], eofbit := true, failbit := true }, str)
    else
      let word := skipped.takeWhile (fun c => !isspace c)
      let rest := skipped.dropWhile (fun c => !isspace c)
      ({ unread := rest, eofbit := rest.isEmpty, failbit := false }, word)

/-- Search of `std::string::find` from position `pos` on: the first position
at which `needle` starts, `none` for `npos`. -/
def find_from (needle : Bytes) (pos : Nat) : Bytes → Option Nat
  | [] => if needle.isEmpty then some pos else none
  | c :: cs =>
    if needle.isPrefixOf (c :: cs) then some pos else find_from needle (pos + 1) cs

/-- The call `s.find(needle)`, `none` for `std::string::npos`. -/
def find (s needle : Bytes) : Option Nat := find_from needle 0 s

/-- The literal searched for by `parse_request`. -/
def cookie_needle : Bytes := "Cookie: session_token=secretkey12345".toList

/-- The function `parse_request(buffer, bytes_read)`; `raw_text` is the list of the
`bytes_read` received bytes. -/
def parse_request (raw_text : Bytes) : HttpRequest :=
  let req := HttpRequest.default
  let ss := StringStream.ofString raw_text
  let (ss1, method) := ss.extract req.method
  let (_, path) := ss1.extract req.path
  let req := { req with method := method, path := path }
  if find raw_text cookie_needle ≠ none then
    { req with is_logged_in := true }
  else
    req

/-! ## `handle_routing` -/

/-- What the router reads from outside the process: the result of
`read_file("index.html")` and of `get_cpu_stats()`. -/
structure Env where
  index_html : Bytes
  cpu_stats : Bytes

/-- The function `handle_routing(req)`: the response, and `req` as the call leaves it (it
is passed by reference and `/logout` clears its flag). -/
def handle_routing (env : Env) (req : HttpRequest) : HttpResponse × HttpRequest :=
  let res := HttpResponse.default
  if req.path = "/".toList then
    let html_content := env.index_html
    if !html_content.isEmpty then
      ({ res with body := html_content }, req)
    else
      ({ res with status_code := 404,
                  body := "<h1>404 Error</h1><p>index.html not found on server.</p>".toList }, req)
  else if req.path = "/cpu".toList then
    ({ res with body := env.cpu_stats }, req)
  else if req.path = "/info".toList then
    ({ res with content_type := "application/json".toList,
                body := "\x7b\"purpose\": \"to build own server\", \"experience\": \"its fantastic\", \"learning\": \"how system calls and networks work\"\x7d".toList }, req)
  else if req.path = "/login".toList ∧ req.method = "POST".toList then
    ({ res with body := "<h1>Login Successful</h1>".toList,
                extra_headers := "Set-Cookie: session_token=secretkey12345; Path=/; HttpOnly\r\n".toList }, req)
  else if req.path = "/dashboard".toList then
    if req.is_logged_in then
      ({ res with body := "<h1>Admin Dashboard</h1><p>Secure Area.</p>".toList }, req)
    else
      ({ res with status_code := 403,
                  body := "<h1>403 Forbidden: Please POST /login</h1>".toList }, req)
  else if req.path = "/logout".toList then
    if req.is_logged_in then
      ({ res with body := "<h1>You are logged out</h1>".toList,
                  extra_headers := "Set-Cookie: session_token=; Path=/; Max-Age=0; HttpOnly\r\n".toList },
       { req with is_logged_in := false })
    else
      ({ res with status_code := 403,
                  body := "<h1>403 Forbidden: Please POST /login</h1>".toList }, req)
  else
    ({ res with status_code := 404, body := "<h1>404 Not Found</h1>".toList }, req)

/-! ## `send_response` -/

/-- The function `status_text(code)`. -/
def status_text (code : Int) : Bytes :=
  match code with
  | 200 => "OK".toList
  | 403 => "Forbidden".toList
  | 404 => "Not Found".toList
  | 503 => "Service Unavailable".toList
  | _ => "Error".toList

/-- The result of `std::to_string` on an unsigned value: its decimal digits. -/
def to_string_size (n : Nat) : Bytes := Nat.toDigits 10 n

/-- The result of `std::to_string` on an `int`: a minus sign for a negative value, then the
decimal digits of the magnitude. -/
def to_string_int (n : Int) : Bytes :=
  if n < 0 then '-' :: Nat.toDigits 10 n.natAbs else Nat.toDigits 10 n.natAbs

/-- The string `response_str` that `send_response` builds and hands to
`send`, concatenated in the order of the source expression. -/
def send_response (res : HttpResponse) : Bytes :=
  "HTTP/1.1 ".toList ++ to_string_int res.status_code ++ " ".toList ++
    status_text res.status_code ++ "\r\n".toList ++
    "Content-Type: ".toList ++ res.content_type ++ "\r\n".toList ++
    "Content-Length: ".toList ++ to_string_size res.body.length ++ "\r\n".toList ++
    "Connection: keep-alive\r\n".toList ++
    "Keep-Alive: timeout=5, max=100\r\n".toList ++
    res.extra_headers ++
    "\r\n".toList ++
    res.body

/-! ## WorkerPool: the state behind `qmutex_` -/

/-- The members of `class WorkerPool` that matter here: the queue `clients_`
(front of the queue first), the vector `workers_` (one entry per thread, the
index at which it was created) and the flag `stop_`. -/
structure WorkerPool where
  clients_ : List Int
  workers_ : List Nat
  stop_ : Bool
  deriving DecidableEq, Repr

/-- Member initialiser `max_queue_size_ = 1000`. -/
def max_queue_size_ : Nat := 1000

/-- The constructor loop `for (size_t i = 0; i < n; i++) workers_.emplace_back(...)`
with `remaining = n - i` iterations still to run, every thread start
succeeding: the vector the loop leaves when it runs to its end. -/
def spawn_workers : (remaining : Nat) → (i : Nat) → List Nat → List Nat
  | 0, _, workers_ => workers_
  | remaining + 1, i, workers_ => spawn_workers remaining (i + 1) (workers_ ++ [i])

/-- The pool a completed constructor `WorkerPool(size_t n)` leaves:
`if (n == 0) n = 4;`, then one thread per `i < n`; `clients_` starts empty and
`stop_` false. -/
def WorkerPool.ctor (n : Nat) : WorkerPool :=
  let n := if n = 0 then 4 else n
  { clients_ := [], workers_ := spawn_workers n 0 [], stop_ := false }

/-- The method `WorkerPool::add_client`: under the lock, refuse when
`clients_.size() >= max_queue_size_`, else `clients_.emplace(new_client)`
at the back; the result is the new state and the returned `bool`. -/
def add_client (p : WorkerPool) (new_client : Int) : WorkerPool × Bool :=
  if p.clients_.length ≥ max_queue_size_ then
    (p, false)
  else
    ({ p with clients_ := p.clients_ ++ [new_client] }, true)

/-- What one pass of a worker through its critical section yields. -/
inductive Dequeued where
  /-- the wait predicate `stop_ || !clients_.empty()` is false: the worker stays in `cv_.wait` -/
  | waiting : Dequeued
  /-- `stop_ && clients_.empty()`: the lambda returns, the thread ends -/
  | stop : Dequeued
  /-- `clients_.front()` was popped and is passed to `handle_client` -/
  | client (fd : Int) : Dequeued
  deriving DecidableEq, Repr

/-- The critical section of the worker lambda: `cv_.wait` with its predicate,
the exit test, then `clients_.front(); clients_.pop()`. The last branch
(`front()` of an empty queue) is never reached: the two tests before it
exclude it. -/
def worker_dequeue (p : WorkerPool) : WorkerPool × Dequeued :=
  if !(p.stop_ || !p.clients_.isEmpty) then
    (p, Dequeued.waiting)
  else if p.stop_ && p.clients_.isEmpty then
    (p, Dequeued.stop)
  else
    match p.clients_ with
    | new_client :: rest => ({ p with clients_ := rest }, Dequeued.client new_client)
    | [] => (p, Dequeued.waiting)

/-- The first critical section of `~WorkerPool`: `stop_ = true`. -/
def set_stop (p : WorkerPool) : WorkerPool := { p with stop_ := true }

/-- How far a worker thread has come. -/
inductive WorkerStatus where
  /-- still in its `while (true)` loop, about to enter the critical section -/
  | running : WorkerStatus
  /-- blocked in `cv_.wait` -/
  | waiting : WorkerStatus
  /-- the lambda has returned -/
  | exited : WorkerStatus
  deriving DecidableEq, Repr

/-- The worker lambda run for at most `fuel` passes of its `while (true)`
loop with no other thread touching the pool: the pool it leaves, the handles
it passed to `handle_client` in order, and where it stands. -/
def worker_thread : Nat → WorkerPool → List Int → WorkerPool × List Int × WorkerStatus
  | 0, p, served => (p, served, WorkerStatus.running)
  | fuel + 1, p, served =>
    match worker_dequeue p with
    | (p1, Dequeued.waiting) => (p1, served, WorkerStatus.waiting)
    | (p1, Dequeued.stop) => (p1, served, WorkerStatus.exited)
    | (p1, Dequeued.client new_client) => worker_thread fuel p1 (served ++ [new_client])

/-! ## Interleavings of the critical sections -/

/-- One atomic step on the shared state, as the threads interleave them. -/
inductive Op where
  /-- the accept loop calls `add_client(fd)` -/
  | add (fd : Int) : Op
  /-- some worker runs its critical section once -/
  | dequeue : Op
  /-- the destructor sets `stop_` -/
  | shutdown : Op
  deriving DecidableEq, Repr

/-- The shared state together with the history of what happened to it:
`enqueued` lists the handles for which `add_client` returned `true`,
`dequeued` the handles the workers took, both oldest first. -/
structure Trace where
  pool : WorkerPool
  enqueued : List Int
  dequeued : List Int
  deriving DecidableEq, Repr

/-- Nothing has happened yet to a pool constructed with `n`. -/
def Trace.init (n : Nat) : Trace :=
  { pool := WorkerPool.ctor n, enqueued := [], dequeued := [] }

/-- Apply one step and record it. -/
def Trace.step (t : Trace) : Op → Trace
  | Op.add fd =>
    match add_client t.pool fd with
    | (p, true) => { t with pool := p, enqueued := t.enqueued ++ [fd] }
    | (p, false) => { t with pool := p }
  | Op.dequeue =>
    match worker_dequeue t.pool with
    | (p, Dequeued.client fd) => { t with pool := p, dequeued := t.dequeued ++ [fd] }
    | (p, _) => { t with pool := p }
  | Op.shutdown => { t with pool := set_stop t.pool }

/-- Apply a finite sequence of steps, first step first. -/
def Trace.run (t : Trace) (ops : List Op) : Trace := ops.foldl Trace.step t

/-- The shared state after a finite sequence of steps on a pool constructed
with `n`. -/
def run (n : Nat) (ops : List Op) : WorkerPool := (Trace.run (Trace.init n) ops).pool

/-! ## Ownership of handles -/

/-- The queue together with the handle each worker holds: `held w` is the
`new_client` that worker `w` is running `handle_client` on, `none` while it is
between connections. -/
structure Owners where
  pool : WorkerPool
  held : Nat → Option Int

/-- A pool constructed with `n`, all workers idle. -/
def Owners.init (n : Nat) : Owners :=
  { pool := WorkerPool.ctor n, held := fun _ => none }

/-- The steps that move handles. `accept` returns a descriptor that is not
open anywhere else, so `add` offers only a handle neither queued nor held; a
refused handle is closed by `main` and never enters the pool. -/
inductive Owners.Step : Owners → Owners → Prop where
  | add (s : Owners) (fd : Int) (hq : fd ∉ s.pool.clients_) (hh : ∀ w, s.held w ≠ some fd) :
      Owners.Step s { s with pool := (add_client s.pool fd).1 }
  | dequeue (s : Owners) (w : Nat) (fd : Int) (p : WorkerPool) (hidle : s.held w = none)
      (hd : worker_dequeue s.pool = (p, Dequeued.client fd)) :
      Owners.Step s { pool := p, held := fun v => if v = w then some fd else s.held v }
  | finish (s : Owners) (w : Nat) :
      Owners.Step s { s with held := fun v => if v = w then none else s.held v }
  | shutdown (s : Owners) :
      Owners.Step s { s with pool := set_stop s.pool }

/-- The states that finitely many steps lead to from a fresh pool. -/
inductive Owners.Reachable (n : Nat) : Owners → Prop where
  | init : Owners.Reachable n (Owners.init n)
  | step (s t : Owners) (hs : Owners.Reachable n s) (hst : Owners.Step s t) :
      Owners.Reachable n t


/-- No handle twice in the queue, none both queued and held, none held twice. -/
def Owners.Exclusive (s : Owners) : Prop :=
  s.pool.clients_.Nodup ∧
  (∀ fd ∈ s.pool.clients_, ∀ w, s.held w ≠ some fd) ∧
  (∀ w1 w2 fd, s.held w1 = some fd → s.held w2 = some fd → w1 = w2)

/-- The state after `add_client(7)`, `add_client(8)` and worker 0 taking the
head: 8 is queued, worker 0 holds 7. -/
def Owners.sample : Owners :=
  { pool := { clients_ := [8], workers_ := [0, 1], stop_ := false },
    held := fun v => if v = 0 then some 7 else none }

/-! ## The specification's words, for comparison with the code -/

/-- The maximal runs of non-whitespace bytes of `s`, in order of appearance:
the pieces between whitespace bytes, without the empty ones. -/
def words (s : Bytes) : List Bytes :=
  (s.splitOnP isspace).filter (fun w => !w.isEmpty)

/-- The reason phrase of a status code as the specification lists them. -/
def reason (c : Int) : Bytes :=
  if c = 200 then "OK".toList
  else if c = 403 then "Forbidden".toList
  else if c = 404 then "Not Found".toList
  else if c = 503 then "Service Unavailable".toList
  else "Error".toList

/-- The decimal rendering of an integer. -/
def decimal (c : Int) : Bytes := (toString c).toList

/-- A line without the carriage return that may end it. -/
def strip_cr (l : Bytes) : Bytes :=
  if l.getLast? = some '\r' then l.dropLast else l

/-- The lines of a message: the pieces between line feeds, each without its
trailing carriage return. -/
def message_lines (s : Bytes) : List Bytes :=
  (s.splitOnP (fun c => c == '\n')).map strip_cr

/-- The header lines of a request: the lines after the request line, up to
the empty line that ends the header block. -/
def header_lines (s : Bytes) : List Bytes :=
  ((message_lines s).drop 1).takeWhile (fun l => !l.isEmpty)

/-- Whether `needle` occurs in `s`. -/
def occurs_in (needle s : Bytes) : Bool := (find s needle).isSome

/-- The request has a `Cookie:` header line that contains the session-token
value `session_token=secretkey12345`. -/
def has_session_cookie_header (s : Bytes) : Bool :=
  (header_lines s).any fun l =>
    "Cookie:".toList.isPrefixOf l && occurs_in "session_token=secretkey12345".toList l

/-- The value of the first header called `name` among the header lines
`headers` (each `name: value`, ended by CR LF). -/
def header_value (name headers : Bytes) : Option Bytes :=
  ((message_lines headers).find? fun l => (name ++ ": ".toList).isPrefixOf l).map
    fun l => l.drop (name.length + 2)

/-- The `name=value` pair of a `Set-Cookie` value: the part before the first
semicolon, which is what a client sends back. -/
def cookie_pair (v : Bytes) : Bytes := v.takeWhile (fun c => c != ';')

/-- The `name=value` pairs that a `Cookie:` header line sends: the text after
`Cookie:` cut at the semicolons, each piece without the blanks before it. -/
def cookie_header_pairs (l : Bytes) : List Bytes :=
  ((l.drop 7).splitOnP (fun c => c == ';')).map fun piece =>
    piece.dropWhile (fun c => c == ' ')

/-- The request has a `Cookie:` header line that sends the cookie `pair`. -/
def sends_cookie (pair raw : Bytes) : Bool :=
  (header_lines raw).any fun l =>
    "Cookie:".toList.isPrefixOf l && (cookie_header_pairs l).contains pair

/-- The request has the header line `line`. -/
def carries_header_line (line raw : Bytes) : Bool :=
  (header_lines raw).contains line

/-! ## Lemmas on the queue -/

theorem add_client_cases (p : WorkerPool) (fd : Int) :
    (max_queue_size_ ≤ p.clients_.length ∧ add_client p fd = (p, false)) ∨
    (p.clients_.length < max_queue_size_ ∧
      add_client p fd = ({ p with clients_ := p.clients_ ++ [fd] }, true)) := by
  unfold add_client
  by_cases h : p.clients_.length ≥ max_queue_size_
  · left; exact ⟨h, by simp [h]⟩
  · right; exact ⟨by omega, by simp [h]⟩

theorem worker_dequeue_nil (ws : List Nat) (stop : Bool) :
    worker_dequeue { clients_ := [], workers_ := ws, stop_ := stop } =
      ({ clients_ := [], workers_ := ws, stop_ := stop },
        if stop then Dequeued.stop else Dequeued.waiting) := by
  cases stop <;> simp [worker_dequeue]

theorem worker_dequeue_cons (ws : List Nat) (stop : Bool) (c : Int) (rest : List Int) :
    worker_dequeue { clients_ := c :: rest, workers_ := ws, stop_ := stop } =
      ({ clients_ := rest, workers_ := ws, stop_ := stop }, Dequeued.client c) := by
  cases stop <;> simp [worker_dequeue]

theorem Trace.run_append (t : Trace) (ops : List Op) (op : Op) :
    Trace.run t (ops ++ [op]) = Trace.step (Trace.run t ops) op := by
  simp [Trace.run, List.foldl_append]

/-- One step keeps the queue within its capacity, keeps `workers_`, and keeps
the history in line with the queue. -/
theorem Trace.step_inv (t : Trace) (op : Op)
    (h : t.pool.clients_.length ≤ max_queue_size_ ∧
      t.enqueued = t.dequeued ++ t.pool.clients_) :
    (t.step op).pool.clients_.length ≤ max_queue_size_ ∧
    (t.step op).enqueued = (t.step op).dequeued ++ (t.step op).pool.clients_ ∧
    (t.step op).pool.workers_ = t.pool.workers_ := by
  obtain ⟨hlen, hhist⟩ := h
  cases op with
  | add fd =>
    rcases add_client_cases t.pool fd with ⟨_, h⟩ | ⟨hlt, h⟩
    · simp only [Trace.step, h]
      exact ⟨hlen, hhist, trivial⟩
    · simp only [Trace.step, h, hhist, List.append_assoc, List.length_append,
        List.length_singleton]
      exact ⟨hlt, trivial, trivial⟩
  | dequeue =>
    obtain ⟨⟨q, ws, stop⟩, enq, deq⟩ := t
    cases q with
    | nil =>
      simp only [Trace.step, worker_dequeue_nil]
      cases stop <;> exact ⟨hlen, hhist, rfl⟩
    | cons c rest =>
      simp only [Trace.step, worker_dequeue_cons]
      simp only at hhist
      simp only [List.length_cons] at hlen
      refine ⟨by omega, ?_, trivial⟩
      simp [hhist]
  | shutdown => exact ⟨hlen, hhist, rfl⟩

/-- The three facts of `Trace.step_inv` hold after every sequence of steps. -/
theorem Trace.run_inv (n : Nat) (ops : List Op) :
    (Trace.run (Trace.init n) ops).pool.clients_.length ≤ max_queue_size_ ∧
    (Trace.run (Trace.init n) ops).enqueued =
      (Trace.run (Trace.init n) ops).dequeued ++ (Trace.run (Trace.init n) ops).pool.clients_ ∧
    (Trace.run (Trace.init n) ops).pool.workers_ = (WorkerPool.ctor n).workers_ := by
  induction ops using List.reverseRecOn with
  | nil => simp [Trace.run, Trace.init, WorkerPool.ctor]
  | append_singleton ops op ih =>
    rw [Trace.run_append]
    obtain ⟨h1, h2, h3⟩ := Trace.step_inv _ op ⟨ih.1, ih.2.1⟩
    exact ⟨h1, h2, h3.trans ih.2.2⟩

/-- A stopping worker left alone with the queue takes one handle per pass. -/
theorem worker_thread_stopping_take (ws : List Nat) (n : Nat) (q served : List Int)
    (h : n ≤ q.length) :
    worker_thread n { clients_ := q, workers_ := ws, stop_ := true } served =
      ({ clients_ := q.drop n, workers_ := ws, stop_ := true }, served ++ q.take n,
        WorkerStatus.running) := by
  induction n generalizing q served with
  | zero => simp [worker_thread]
  | succ k ih =>
    cases q with
    | nil => simp at h
    | cons c rest =>
      simp only [worker_thread, worker_dequeue_cons]
      rw [ih rest (served ++ [c]) (by simpa using h)]
      simp

/-- With a pass to spare the stopping worker empties the queue and returns. -/
theorem worker_thread_stopping_exit (ws : List Nat) (q served : List Int) (extra : Nat) :
    worker_thread (q.length + 1 + extra) { clients_ := q, workers_ := ws, stop_ := true } served =
      ({ clients_ := [], workers_ := ws, stop_ := true }, served ++ q, WorkerStatus.exited) := by
  induction q generalizing served with
  | nil =>
    have : ([] : List Int).length + 1 + extra = extra + 1 := by simp; omega
    rw [this]
    simp [worker_thread, worker_dequeue_nil]
  | cons c rest ih =>
    have : (c :: rest).length + 1 + extra = (rest.length + 1 + extra) + 1 := by simp; omega
    rw [this]
    simp only [worker_thread, worker_dequeue_cons]
    rw [ih]
    simp

/-- Successive `add_client` calls that fit into the queue all succeed. -/
theorem Trace.run_adds (t : Trace) (k : Nat) (fd : Int)
    (h : t.pool.clients_.length + k ≤ max_queue_size_) :
    (Trace.run t (List.replicate k (Op.add fd))).pool.clients_ =
      t.pool.clients_ ++ List.replicate k fd := by
  induction k generalizing t with
  | zero => simp [Trace.run]
  | succ k ih =>
    have hstep : (t.step (Op.add fd)).pool.clients_ = t.pool.clients_ ++ [fd] := by
      rcases add_client_cases t.pool fd with ⟨hfull, _⟩ | ⟨_, hadd⟩
      · omega
      · simp only [Trace.step, hadd]
    have hrun : Trace.run t (List.replicate (k + 1) (Op.add fd)) =
        Trace.run (t.step (Op.add fd)) (List.replicate k (Op.add fd)) := by
      simp [Trace.run, List.replicate_succ]
    rw [hrun, ih (t.step (Op.add fd)) (by rw [hstep]; simp; omega), hstep]
    simp [List.replicate_succ]

theorem run_adds_to_capacity (n k : Nat) (fd : Int) (hk : max_queue_size_ = k) :
    (run n (List.replicate k (Op.add fd))).clients_.length = k ∧
    (add_client (run n (List.replicate k (Op.add fd))) fd).2 = false ∧
    (run n (List.replicate k (Op.add fd) ++ [Op.add fd])).clients_.length = k := by
  have h0 : (Trace.init n).pool.clients_ = [] := rfl
  have h := Trace.run_adds (Trace.init n) k fd
    (by rw [h0, hk, List.length_nil, Nat.zero_add])
  have hlen : (run n (List.replicate k (Op.add fd))).clients_.length = k := by
    unfold run
    rw [h, h0, List.nil_append, List.length_replicate]
  have hfull : add_client (run n (List.replicate k (Op.add fd))) fd =
      (run n (List.replicate k (Op.add fd)), false) := by
    rcases add_client_cases (run n (List.replicate k (Op.add fd))) fd with ⟨_, hr⟩ | ⟨hlt, _⟩
    · exact hr
    · rw [hlen, hk] at hlt
      exact absurd hlt (Nat.lt_irrefl k)
  refine ⟨hlen, by rw [hfull], ?_⟩
  unfold run at hlen hfull ⊢
  rw [Trace.run_append]
  simp only [Trace.step, hfull]
  exact hlen

/-- The full queue is reachable, and there `add_client` refuses: after
`max_queue_size_` accepted handles the next call returns `false` and leaves
the queue as it is. -/
theorem add_client_refuses_when_full (n : Nat) (fd : Int) :
    (run n (List.replicate max_queue_size_ (Op.add fd))).clients_.length = max_queue_size_ ∧
    (add_client (run n (List.replicate max_queue_size_ (Op.add fd))) fd).2 = false ∧
    (run n (List.replicate max_queue_size_ (Op.add fd) ++ [Op.add fd])).clients_.length =
      max_queue_size_ :=
  run_adds_to_capacity n max_queue_size_ fd rfl

/-! ## Claims on the admission queue and the pool -/

/-- C1. For a pool constructed with any `n`, starting from the empty queue,
after every finite sequence of `add_client`, worker dequeue (and shutdown)
steps the queue holds at most `max_queue_size_ = 1000` handles. -/
theorem queue_length_le_capacity (n : Nat) (ops : List Op) :
    (run n []).clients_ = [] ∧
    (run n ops).clients_.length ≤ max_queue_size_ ∧ max_queue_size_ = 1000 :=
  ⟨rfl, (Trace.run_inv n ops).1, rfl⟩

/-- C2. In every state reachable from the empty queue, `add_client` returns
`false` exactly when the queue length equals the capacity 1000 at the call,
and `true` otherwise. -/
theorem add_client_false_iff_full (n : Nat) (ops : List Op) (fd : Int) :
    ((add_client (run n ops) fd).2 = false ↔ (run n ops).clients_.length = 1000) ∧
    ((add_client (run n ops) fd).2 = true ↔ (run n ops).clients_.length ≠ 1000) := by
  have hle : (run n ops).clients_.length ≤ 1000 := (Trace.run_inv n ops).1
  generalize run n ops = p at hle
  unfold add_client max_queue_size_
  by_cases h : p.clients_.length ≥ 1000
  · have : p.clients_.length = 1000 := by omega
    simp [this]
  · have : p.clients_.length ≠ 1000 := by omega
    simp [h, this]

/-- C3. For every interleaving of `add_client`, dequeue and shutdown steps the
sequence of dequeued handles is a prefix of the sequence of successfully
enqueued handles (the rest being exactly the queue), so the k-th handle
dequeued is the k-th handle enqueued. -/
theorem dequeued_prefix_of_enqueued (n : Nat) (ops : List Op) :
    (Trace.run (Trace.init n) ops).dequeued <+: (Trace.run (Trace.init n) ops).enqueued ∧
    (Trace.run (Trace.init n) ops).enqueued =
      (Trace.run (Trace.init n) ops).dequeued ++ (Trace.run (Trace.init n) ops).pool.clients_ ∧
    ∀ k : Fin (Trace.run (Trace.init n) ops).dequeued.length,
      (Trace.run (Trace.init n) ops).enqueued[k.val]? =
        some ((Trace.run (Trace.init n) ops).dequeued.get k) := by
  have h := (Trace.run_inv n ops).2.1
  refine ⟨⟨_, h.symm⟩, h, ?_⟩
  intro k
  rw [h, List.getElem?_append_left k.isLt]
  simp

/-- C5. A worker's pass through its critical section yields the stop signal
exactly when `stop_` is set and the queue is empty; with a non-empty queue it
yields the head handle whatever `stop_` is; so a worker left with a stopping
pool of k queued handles has, after j ≤ k passes, taken the first j handles and
not exited, and after k+1 passes (or more) has taken all k in order and exited. -/
theorem worker_drains_before_stop :
    (∀ p : WorkerPool,
      (worker_dequeue p).2 = Dequeued.stop ↔ (p.stop_ = true ∧ p.clients_ = [])) ∧
    (∀ (ws : List Nat) (stop : Bool) (c : Int) (rest : List Int),
      worker_dequeue { clients_ := c :: rest, workers_ := ws, stop_ := stop } =
        ({ clients_ := rest, workers_ := ws, stop_ := stop }, Dequeued.client c)) ∧
    (∀ (ws : List Nat) (q : List Int) (j : Nat), j ≤ q.length →
      worker_thread j { clients_ := q, workers_ := ws, stop_ := true } [] =
        ({ clients_ := q.drop j, workers_ := ws, stop_ := true }, q.take j,
          WorkerStatus.running)) ∧
    (∀ (ws : List Nat) (q : List Int) (extra : Nat),
      worker_thread (q.length + 1 + extra) { clients_ := q, workers_ := ws, stop_ := true } [] =
        ({ clients_ := [], workers_ := ws, stop_ := true }, q, WorkerStatus.exited)) := by
  refine ⟨?_, worker_dequeue_cons, ?_, ?_⟩
  · rintro ⟨q, ws, stop⟩
    cases q with
    | nil => rw [worker_dequeue_nil]; cases stop <;> simp
    | cons c rest => rw [worker_dequeue_cons]; simp
  · intro ws q j hj
    simpa using worker_thread_stopping_take ws j q [] hj
  · intro ws q extra
    simpa using worker_thread_stopping_exit ws q [] extra

/-! ## Ownership: lemmas and claim -/

theorem worker_dequeue_client (p p1 : WorkerPool) (fd : Int)
    (h : worker_dequeue p = (p1, Dequeued.client fd)) :
    p.clients_ = fd :: p1.clients_ := by
  obtain ⟨q, ws, stop⟩ := p
  cases q with
  | nil =>
    rw [worker_dequeue_nil] at h
    cases stop <;> simp at h
  | cons c rest =>
    rw [worker_dequeue_cons] at h
    simp only [Prod.mk.injEq, Dequeued.client.injEq] at h
    obtain ⟨h1, h2⟩ := h
    subst h1 h2
    rfl

theorem Owners.step_exclusive (s t : Owners) (hst : Owners.Step s t)
    (hs : s.Exclusive) : t.Exclusive := by
  obtain ⟨hnd, hqh, hhh⟩ := hs
  cases hst with
  | add fd hq hh =>
    rcases add_client_cases s.pool fd with ⟨_, h⟩ | ⟨_, h⟩
    · simp only [h]
      exact ⟨hnd, hqh, hhh⟩
    · simp only [h]
      refine ⟨?_, ?_, hhh⟩
      · exact List.Nodup.append hnd (List.nodup_singleton fd) (by simpa using hq)
      · intro c hc w
        rcases List.mem_append.mp hc with hc | hc
        · exact hqh c hc w
        · rw [List.mem_singleton.mp hc]
          exact hh w
  | dequeue w fd p hidle hd =>
    have hq := worker_dequeue_client s.pool p fd hd
    rw [hq] at hnd hqh
    obtain ⟨hfd, hrest⟩ := List.nodup_cons.mp hnd
    refine ⟨hrest, ?_, ?_⟩
    · intro c hc v
      show (if v = w then some fd else s.held v) ≠ some c
      by_cases hv : v = w
      · rw [if_pos hv]
        intro h
        exact hfd (by rw [Option.some.inj h]; exact hc)
      · rw [if_neg hv]
        exact hqh c (List.mem_cons_of_mem _ hc) v
    · intro w1 w2 c h1 h2
      change (if w1 = w then some fd else s.held w1) = some c at h1
      change (if w2 = w then some fd else s.held w2) = some c at h2
      by_cases hw1 : w1 = w <;> by_cases hw2 : w2 = w
      · rw [hw1, hw2]
      · rw [if_pos hw1] at h1
        rw [if_neg hw2] at h2
        rw [← Option.some.inj h1] at h2
        exact absurd h2 (hqh fd (List.mem_cons_self _ _) w2)
      · rw [if_neg hw1] at h1
        rw [if_pos hw2] at h2
        rw [← Option.some.inj h2] at h1
        exact absurd h1 (hqh fd (List.mem_cons_self _ _) w1)
      · rw [if_neg hw1] at h1
        rw [if_neg hw2] at h2
        exact hhh w1 w2 c h1 h2
  | finish w =>
    refine ⟨hnd, ?_, ?_⟩
    · intro c hc v
      show (if v = w then none else s.held v) ≠ some c
      by_cases hv : v = w
      · rw [if_pos hv]; exact Option.noConfusion
      · rw [if_neg hv]; exact hqh c hc v
    · intro w1 w2 c h1 h2
      change (if w1 = w then none else s.held w1) = some c at h1
      change (if w2 = w then none else s.held w2) = some c at h2
      by_cases hw1 : w1 = w
      · rw [if_pos hw1] at h1; exact Option.noConfusion h1
      · by_cases hw2 : w2 = w
        · rw [if_pos hw2] at h2; exact Option.noConfusion h2
        · rw [if_neg hw1] at h1
          rw [if_neg hw2] at h2
          exact hhh w1 w2 c h1 h2
  | shutdown => exact ⟨hnd, hqh, hhh⟩

theorem Owners.reachable_exclusive (n : Nat) (s : Owners) (h : Owners.Reachable n s) :
    s.Exclusive := by
  induction h with
  | init =>
    refine ⟨?_, ?_, ?_⟩
    · simp [Owners.init, WorkerPool.ctor]
    · intro fd hfd
      simp [Owners.init, WorkerPool.ctor] at hfd
    · intro w1 w2 fd h1
      simp [Owners.init] at h1
  | step s t _ hst ih => exact Owners.step_exclusive s t hst ih

/-- C4. In every state reachable by `add_client` of a handle neither queued
nor held, dequeue by an idle worker, a worker finishing its handle, and
shutdown, no two workers hold the same handle and no handle is both in the
queue and held by a worker. -/
theorem at_most_one_owner (n : Nat) (s : Owners) (h : Owners.Reachable n s) :
    (∀ w1 w2 fd, s.held w1 = some fd → s.held w2 = some fd → w1 = w2) ∧
    (∀ fd ∈ s.pool.clients_, ∀ w, s.held w ≠ some fd) :=
  ⟨(Owners.reachable_exclusive n s h).2.2, (Owners.reachable_exclusive n s h).2.1⟩

theorem Owners.sample_reachable : Owners.Reachable 2 Owners.sample := by
  have s0 : Owners.Reachable 2 (Owners.init 2) := Owners.Reachable.init
  have s1 := Owners.Reachable.step _ _ s0
    (Owners.Step.add (Owners.init 2) 7 (by simp [Owners.init, WorkerPool.ctor])
      (by simp [Owners.init]))
  have s2 := Owners.Reachable.step _ _ s1
    (Owners.Step.add _ 8 (by simp [Owners.init, WorkerPool.ctor, add_client, max_queue_size_])
      (by simp [Owners.init]))
  have s3 := Owners.Reachable.step _ _ s2
    (Owners.Step.dequeue _ 0 7 { clients_ := [8], workers_ := [0, 1], stop_ := false }
      (by simp [Owners.init])
      (by simp [Owners.init, WorkerPool.ctor, add_client, max_queue_size_, worker_dequeue,
            spawn_workers]))
  simpa [Owners.sample, Owners.init] using s3

/-- C4 at a concrete reachable state. -/
theorem at_most_one_owner_witness :
    Owners.Reachable 2 Owners.sample ∧
    (∀ w1 w2 fd, Owners.sample.held w1 = some fd → Owners.sample.held w2 = some fd → w1 = w2) ∧
    (∀ fd ∈ Owners.sample.pool.clients_, ∀ w, Owners.sample.held w ≠ some fd) :=
  ⟨Owners.sample_reachable, at_most_one_owner 2 Owners.sample Owners.sample_reachable⟩

/-! ## Pool size -/

theorem status_text_eq_reason (c : Int) : status_text c = reason c := by
  unfold status_text reason
  split <;> simp_all

theorem to_string_int_eq_decimal (c : Int) : to_string_int c = decimal c := by
  cases c with
  | ofNat m =>
    have h : ¬ ((m : Int) < 0) := by omega
    simp [to_string_int, decimal, h, toString, Nat.repr, List.asString]
  | negSucc m =>
    have h : Int.negSucc m < 0 := Int.negSucc_lt_zero m
    simp [to_string_int, decimal, h, toString, Nat.repr, Int.natAbs, List.asString]

theorem to_string_size_eq_decimal (n : Nat) : to_string_size n = decimal (n : Int) := by
  have h : ((n : Int)) = Int.ofNat n := rfl
  rw [h]
  simp [to_string_size, decimal, toString, Nat.repr, List.asString]

/-- C6. For every response (status code `c`, content type `t`, body `b`, extra
header text `e`) the bytes `send_response` builds are the status line
`HTTP/1.1 <decimal c> <reason c>`, the `Content-Type` line with `t`, the
`Content-Length` line with the decimal byte length of `b`, the two fixed
keep-alive lines, `e`, an empty line and `b`, where `reason` is OK, Forbidden,
Not Found, Service Unavailable for 200, 403, 404, 503 and Error otherwise. -/
theorem send_response_layout (c : Int) (t b e : Bytes) :
    send_response { status_code := c, content_type := t, body := b, extra_headers := e } =
      ("HTTP/1.1 ".toList ++ decimal c ++ " ".toList ++ reason c ++ "\r\n".toList) ++
      ("Content-Type: ".toList ++ t ++ "\r\n".toList) ++
      ("Content-Length: ".toList ++ decimal (b.length : Int) ++ "\r\n".toList) ++
      "Connection: keep-alive\r\n".toList ++
      "Keep-Alive: timeout=5, max=100\r\n".toList ++
      e ++
      "\r\n".toList ++
      b := by
  simp only [send_response, status_text_eq_reason, to_string_int_eq_decimal,
    to_string_size_eq_decimal, List.append_assoc]


/-! ## The request line -/

/-- The words of a small text. -/
theorem words_sample :
    words " GET  /a\tb\r\n".toList = ["GET".toList, "/a".toList, "b".toList] := by
  decide

theorem words_nil : words [] = [] := by
  simp [words, List.splitOnP_nil]

theorem words_cons_space (c : Char) (cs : Bytes) (h : isspace c = true) :
    words (c :: cs) = words cs := by
  simp [words, List.splitOnP_cons, h]

theorem words_dropWhile_isspace (s : Bytes) : words (s.dropWhile isspace) = words s := by
  induction s with
  | nil => rfl
  | cons c cs ih =>
    by_cases h : isspace c = true
    · rw [List.dropWhile_cons_of_pos h, ih, words_cons_space c cs h]
    · rw [List.dropWhile_cons_of_neg h]

/-- A text that starts with a non-whitespace byte: its first word is the run
up to the next whitespace, the other words are those of what follows. -/
theorem words_of_word_start (c : Char) (cs : Bytes) (hc : isspace c = false) :
    words (c :: cs) =
      (c :: cs).takeWhile (fun x => !isspace x) ::
        words ((c :: cs).dropWhile (fun x => !isspace x)) := by
  have hsplit := List.takeWhile_append_dropWhile (fun x => !isspace x) (c :: cs)
  have hword : ∀ x ∈ (c :: cs).takeWhile (fun x => !isspace x), ¬ (isspace x = true) := by
    intro x hx
    have := List.mem_takeWhile_imp hx
    simpa using this
  have hne : (c :: cs).takeWhile (fun x => !isspace x) ≠ [] := by
    simp [List.takeWhile_cons, hc]
  generalize (c :: cs).takeWhile (fun x => !isspace x) = word at hsplit hword hne
  cases hrest : (c :: cs).dropWhile (fun x => !isspace x) with
  | nil =>
    rw [hrest, List.append_nil] at hsplit
    rw [← hsplit, words_nil]
    simp [words, List.splitOnP_eq_single isspace word hword, hne]
  | cons sep tail =>
    have hsep : isspace sep = true := by
      have h := List.head?_dropWhile_not (fun x => !isspace x) (c :: cs)
      rw [hrest] at h
      simpa using h
    rw [hrest] at hsplit
    rw [← hsplit, words_cons_space sep tail hsep]
    simp [words, List.splitOnP_first isspace word hword sep hsep tail, hne]

theorem words_eq (s : Bytes) :
    words s =
      match s.dropWhile isspace with
      | [] => []
      | c :: cs =>
        (c :: cs).takeWhile (fun x => !isspace x) ::
          words ((c :: cs).dropWhile (fun x => !isspace x)) := by
  rw [← words_dropWhile_isspace]
  cases h : s.dropWhile isspace with
  | nil => exact words_nil
  | cons c cs =>
    have hc : isspace c = false := by
      have h1 := List.head?_dropWhile_not isspace s
      rw [h] at h1
      simpa using h1
    exact words_of_word_start c cs hc

/-- Extraction from a good stream: nothing but whitespace left fails and
keeps `str`; otherwise the next word is read. -/
theorem StringStream.extract_good (s str : Bytes) :
    StringStream.extract { unread := s, eofbit := false, failbit := false } str =
      match s.dropWhile isspace with
      | [] => ({ unread := [], eofbit := true, failbit := true }, str)
      | c :: cs =>
        ({ unread := (c :: cs).dropWhile (fun x => !isspace x),
           eofbit := ((c :: cs).dropWhile (fun x => !isspace x)).isEmpty,
           failbit := false },
         (c :: cs).takeWhile (fun x => !isspace x)) := by
  unfold StringStream.extract
  cases h : s.dropWhile isspace with
  | nil => simp
  | cons c cs => simp

/-- The two tokens of a parsed request are the results of the two
extractions; the cookie scan does not touch them. -/
theorem parse_request_fields (s : Bytes) :
    (parse_request s).method = ((StringStream.ofString s).extract []).2 ∧
    (parse_request s).path =
      (((StringStream.ofString s).extract []).1.extract []).2 := by
  unfold parse_request
  simp only [HttpRequest.default]
  split <;> exact ⟨rfl, rfl⟩

theorem parse_request_method_path (s : Bytes) :
    (parse_request s).method = (words s).getD 0 [] ∧
    (parse_request s).path = (words s).getD 1 [] := by
  rw [(parse_request_fields s).1, (parse_request_fields s).2]
  simp only [StringStream.ofString]
  rw [StringStream.extract_good, words_eq s]
  cases h : s.dropWhile isspace with
  | nil =>
    simp [StringStream.extract]
  | cons c cs =>
    simp only [List.getD_cons_zero, List.getD_cons_succ, true_and]
    cases hrest : (c :: cs).dropWhile (fun x => !isspace x) with
    | nil =>
      simp [StringStream.extract, words_nil]
    | cons sep tail =>
      simp only [List.isEmpty_cons]
      rw [StringStream.extract_good, words_eq (sep :: tail)]
      cases h2 : (sep :: tail).dropWhile isspace with
      | nil => simp
      | cons c2 cs2 => simp

/-- C7. For every received byte string (of any length, so of length 1 to 4096)
`parse_request` returns a request whose method is the first and whose path is
the second maximal run of non-whitespace bytes, whatever follows the second;
a run that is missing is the empty string. -/
theorem parse_request_tokens (raw_text : Bytes) :
    (parse_request raw_text).method = (words raw_text).getD 0 [] ∧
    (parse_request raw_text).path = (words raw_text).getD 1 [] :=
  parse_request_method_path raw_text

/-! ## The cookie scan -/

theorem find_from_ne_none_iff (needle : Bytes) (pos : Nat) (s : Bytes) :
    find_from needle pos s ≠ none ↔ needle <:+: s := by
  induction s generalizing pos with
  | nil =>
    cases needle <;> simp [find_from]
  | cons c cs ih =>
    rw [List.infix_cons_iff, ← ih (pos + 1)]
    by_cases h : needle.isPrefixOf (c :: cs) = true
    · have hp : needle <+: c :: cs := List.isPrefixOf_iff_prefix.mp h
      simp [find_from, h, hp]
    · have hp : ¬ needle <+: c :: cs := fun hp => h (List.isPrefixOf_iff_prefix.mpr hp)
      simp [find_from, h, hp]

theorem parse_request_is_logged_in (raw_text : Bytes) :
    (parse_request raw_text).is_logged_in = true ↔ cookie_needle <:+: raw_text := by
  rw [← find_from_ne_none_iff cookie_needle 0 raw_text]
  unfold parse_request find
  simp only [HttpRequest.default]
  split
  · rename_i h; simp [h]
  · rename_i h; simp [h]

/-- C8, as stated, fails in both directions. These three requests have no
`Cookie:` header line with the session token (the text stands in the body, in
the request line, in another header) and are marked authenticated; the fourth
has a `Cookie:` header line that contains `session_token=secretkey12345` after
another cookie and is not. -/
theorem cookie_scan_ignores_header_lines :
    ((parse_request
        "POST /note HTTP/1.1\r\nHost: a\r\n\r\nCookie: session_token=secretkey12345".toList).is_logged_in = true ∧
      has_session_cookie_header
        "POST /note HTTP/1.1\r\nHost: a\r\n\r\nCookie: session_token=secretkey12345".toList = false) ∧
    ((parse_request
        "GET /?Cookie: session_token=secretkey12345 HTTP/1.1\r\n\r\n".toList).is_logged_in = true ∧
      has_session_cookie_header
        "GET /?Cookie: session_token=secretkey12345 HTTP/1.1\r\n\r\n".toList = false) ∧
    ((parse_request
        "GET / HTTP/1.1\r\nX-Cookie: session_token=secretkey12345\r\n\r\n".toList).is_logged_in = true ∧
      has_session_cookie_header
        "GET / HTTP/1.1\r\nX-Cookie: session_token=secretkey12345\r\n\r\n".toList = false) ∧
    ((parse_request
        "GET / HTTP/1.1\r\nCookie: theme=dark; session_token=secretkey12345\r\n\r\n".toList).is_logged_in = false ∧
      has_session_cookie_header
        "GET / HTTP/1.1\r\nCookie: theme=dark; session_token=secretkey12345\r\n\r\n".toList = true) := by
  decide

/-- C8, amended. For every received request `parse_request` marks it
authenticated exactly when the received bytes contain the fixed text
`Cookie: session_token=secretkey12345` somewhere, wherever that is. -/
theorem is_logged_in_iff_contains_needle (raw_text : Bytes) :
    ((parse_request raw_text).is_logged_in = true ↔
      "Cookie: session_token=secretkey12345".toList <:+: raw_text) ∧
    ((parse_request raw_text).is_logged_in = true ↔
      ∃ before after : Bytes,
        raw_text = before ++ "Cookie: session_token=secretkey12345".toList ++ after) := by
  have h := parse_request_is_logged_in raw_text
  refine ⟨h, h.trans ?_⟩
  constructor
  · rintro ⟨before, after, hs⟩
    exact ⟨before, after, hs.symm⟩
  · rintro ⟨before, after, hs⟩
    exact ⟨before, after, hs.symm⟩

/-! ## Login and dashboard -/

theorem handle_routing_login (env : Env) (req : HttpRequest)
    (hm : req.method = "POST".toList) (hp : req.path = "/login".toList) :
    (handle_routing env req).1 =
      { HttpResponse.default with
        body := "<h1>Login Successful</h1>".toList,
        extra_headers := "Set-Cookie: session_token=secretkey12345; Path=/; HttpOnly\r\n".toList } := by
  unfold handle_routing
  simp only [hm, hp]
  rw [if_neg (by decide), if_neg (by decide), if_neg (by decide), if_pos (by decide)]

theorem handle_routing_dashboard (env : Env) (req : HttpRequest)
    (hp : req.path = "/dashboard".toList) :
    (handle_routing env req).1 =
      if req.is_logged_in then
        { HttpResponse.default with body := "<h1>Admin Dashboard</h1><p>Secure Area.</p>".toList }
      else
        { HttpResponse.default with
          status_code := 403, body := "<h1>403 Forbidden: Please POST /login</h1>".toList } := by
  unfold handle_routing
  simp only [hp]
  rw [if_neg (by decide), if_neg (by decide), if_neg (by decide),
    if_neg (fun h => absurd h.1 (by decide)), if_pos trivial]
  cases req.is_logged_in <;> rfl

/-- C9, as stated, fails. The login response sets the value
`session_token=secretkey12345; Path=/; HttpOnly`. Each of these three
`GET /dashboard` requests has no header line `Cookie: ` plus that value, no
`Cookie:` header line that sends the cookie `session_token=secretkey12345`,
and does not contain the value anywhere; the fixed text stands in an
`X-Cookie` header, in the body, or begins a longer token. Each is routed to
status 200 with the dashboard body, not to 403. -/
theorem dashboard_200_without_that_cookie :
    header_value "Set-Cookie".toList
      (handle_routing { index_html := [], cpu_stats := [] }
        (parse_request "POST /login HTTP/1.1\r\n\r\n".toList)).1.extra_headers =
      some "session_token=secretkey12345; Path=/; HttpOnly".toList ∧
    (∀ raw ∈ ["GET /dashboard HTTP/1.1\r\nX-Cookie: session_token=secretkey12345\r\n\r\n".toList,
              "GET /dashboard HTTP/1.1\r\nHost: a\r\n\r\nCookie: session_token=secretkey12345".toList,
              "GET /dashboard HTTP/1.1\r\nCookie: session_token=secretkey123456789\r\n\r\n".toList],
      (parse_request raw).method = "GET".toList ∧
      (parse_request raw).path = "/dashboard".toList ∧
      carries_header_line
        "Cookie: session_token=secretkey12345; Path=/; HttpOnly".toList raw = false ∧
      sends_cookie "session_token=secretkey12345".toList raw = false ∧
      sends_cookie "session_token=secretkey12345; Path=/; HttpOnly".toList raw = false ∧
      occurs_in "session_token=secretkey12345; Path=/; HttpOnly".toList raw = false ∧
      (handle_routing { index_html := [], cpu_stats := [] }
        (parse_request raw)).1.status_code = 200 ∧
      (handle_routing { index_html := [], cpu_stats := [] }
        (parse_request raw)).1.status_code ≠ 403 ∧
      (handle_routing { index_html := [], cpu_stats := [] } (parse_request raw)).1.body =
        "<h1>Admin Dashboard</h1><p>Secure Area.</p>".toList) := by
  decide

/-- C9, amended. Let `v` be the value of the `Set-Cookie` header in the
response to a request parsed as `POST /login`. Every request parsed as
`GET /dashboard` that carries `Cookie: ` followed by `v` is routed to status
200 with the dashboard body. A request parsed as `GET /dashboard` is routed to
status 403 exactly when its received bytes nowhere contain the text `Cookie: `
followed by the `name=value` pair of `v`; when they contain that text anywhere,
in a `Cookie` header line or not, it is routed to status 200 with the dashboard
body. -/
theorem login_round_trip (env : Env) (login : Bytes)
    (hm : (parse_request login).method = "POST".toList)
    (hp : (parse_request login).path = "/login".toList) :
    ∃ v : Bytes,
      header_value "Set-Cookie".toList
        (handle_routing env (parse_request login)).1.extra_headers = some v ∧
      v = "session_token=secretkey12345; Path=/; HttpOnly".toList ∧
      "Cookie: ".toList ++ cookie_pair v = "Cookie: session_token=secretkey12345".toList ∧
      (∀ raw : Bytes,
        (parse_request raw).method = "GET".toList →
        (parse_request raw).path = "/dashboard".toList →
        ("Cookie: ".toList ++ v) <:+: raw →
        (handle_routing env (parse_request raw)).1.status_code = 200 ∧
        (handle_routing env (parse_request raw)).1.body =
          "<h1>Admin Dashboard</h1><p>Secure Area.</p>".toList) ∧
      (∀ raw : Bytes,
        (parse_request raw).method = "GET".toList →
        (parse_request raw).path = "/dashboard".toList →
        ((handle_routing env (parse_request raw)).1.status_code = 403 ↔
          ¬ ("Cookie: ".toList ++ cookie_pair v) <:+: raw)) ∧
      (∀ raw : Bytes,
        (parse_request raw).method = "GET".toList →
        (parse_request raw).path = "/dashboard".toList →
        ((handle_routing env (parse_request raw)).1.status_code = 200 ∧
          (handle_routing env (parse_request raw)).1.body =
            "<h1>Admin Dashboard</h1><p>Secure Area.</p>".toList ↔
          ("Cookie: ".toList ++ cookie_pair v) <:+: raw)) := by
  have heq : "Cookie: ".toList ++
      cookie_pair "session_token=secretkey12345; Path=/; HttpOnly".toList = cookie_needle := by
    decide
  have h200 : ∀ raw : Bytes, (parse_request raw).path = "/dashboard".toList →
      cookie_needle <:+: raw →
      (handle_routing env (parse_request raw)).1.status_code = 200 ∧
      (handle_routing env (parse_request raw)).1.body =
        "<h1>Admin Dashboard</h1><p>Secure Area.</p>".toList := by
    intro raw hpath hcookie
    have hlog : (parse_request raw).is_logged_in = true :=
      (parse_request_is_logged_in raw).mpr hcookie
    rw [handle_routing_dashboard env _ hpath, hlog]
    exact ⟨rfl, rfl⟩
  have h403 : ∀ raw : Bytes, (parse_request raw).path = "/dashboard".toList →
      ¬ cookie_needle <:+: raw →
      (handle_routing env (parse_request raw)).1.status_code = 403 := by
    intro raw hpath hcookie
    have hlog : (parse_request raw).is_logged_in = false := by
      cases h : (parse_request raw).is_logged_in with
      | false => rfl
      | true => exact absurd ((parse_request_is_logged_in raw).mp h) hcookie
    rw [handle_routing_dashboard env _ hpath, hlog]
    rfl
  refine ⟨"session_token=secretkey12345; Path=/; HttpOnly".toList, ?_, rfl, by decide, ?_, ?_, ?_⟩
  · rw [handle_routing_login env _ hm hp]
    decide
  · intro raw _ hpath hcookie
    have hpre : cookie_needle <+:
        "Cookie: ".toList ++ "session_token=secretkey12345; Path=/; HttpOnly".toList :=
      ⟨"; Path=/; HttpOnly".toList, by decide⟩
    exact h200 raw hpath (hpre.isInfix.trans hcookie)
  · intro raw _ hpath
    rw [heq]
    constructor
    · intro hs hin
      rw [(h200 raw hpath hin).1] at hs
      exact absurd hs (by decide)
    · exact h403 raw hpath
  · intro raw _ hpath
    rw [heq]
    constructor
    · intro hs
      by_contra hin
      rw [h403 raw hpath hin] at hs
      exact absurd hs.1 (by decide)
    · exact h200 raw hpath

/-- C9, amended, at a concrete login request, with the hypotheses of the
theorem checked there, and dashboard requests evaluated: one that echoes the
whole value (200), one that sends the pair alone (200), one with no cookie
(403). -/
theorem login_round_trip_witness :
    (parse_request "POST /login HTTP/1.1\r\n\r\n".toList).method = "POST".toList ∧
    (parse_request "POST /login HTTP/1.1\r\n\r\n".toList).path = "/login".toList ∧
    (∃ v : Bytes,
      header_value "Set-Cookie".toList
        (handle_routing { index_html := [], cpu_stats := [] }
          (parse_request "POST /login HTTP/1.1\r\n\r\n".toList)).1.extra_headers = some v ∧
      v = "session_token=secretkey12345; Path=/; HttpOnly".toList) ∧
    (handle_routing { index_html := [], cpu_stats := [] }
      (parse_request
        "GET /dashboard HTTP/1.1\r\nCookie: session_token=secretkey12345; Path=/; HttpOnly\r\n\r\n".toList)).1.status_code = 200 ∧
    (handle_routing { index_html := [], cpu_stats := [] }
      (parse_request
        "GET /dashboard HTTP/1.1\r\nCookie: session_token=secretkey12345\r\n\r\n".toList)).1.status_code = 200 ∧
    (handle_routing { index_html := [], cpu_stats := [] }
      (parse_request "GET /dashboard HTTP/1.1\r\n\r\n".toList)).1.status_code = 403 := by
  obtain ⟨v, hv, hval, _⟩ :=
    login_round_trip { index_html := [], cpu_stats := [] } "POST /login HTTP/1.1\r\n\r\n".toList
      (by decide) (by decide)
  exact ⟨by decide, by decide, ⟨v, hv, hval⟩, by decide, by decide, by decide⟩

end MtHttpServer
